import Mathlib

/-!
Verification of the reconciliation logic of the kinde resource-management
provider.  The definitions below are shallow embeddings of the Go source:
pure helpers (`splitID`, `sortStringSlice`, `sortPermissions`) are modelled
directly, the per-resource Update/Delete/Read flows are modelled as explicit
state-passing functions over a gateway record holding the remote responses,
and Go slices mutated in place are modelled with an explicit heap.
-/

/-! ## Byte-order comparison of member identifiers

Go's `sort.Strings` orders strings by byte order.  We model identifiers as
Lean `String`s and compare their character lists by code point, which agrees
with Go's byte order on the ASCII identifiers the provider handles. -/

/-- Lexicographic byte-order comparison on character lists, mirroring Go's
`<=` on strings. -/
def charListLe : List Char → List Char → Bool
  | [], _ => true
  | _ :: _, [] => false
  | x :: xs, y :: ys => x.toNat < y.toNat || (x.toNat = y.toNat && charListLe xs ys)

/-- Byte-order comparison of two strings, as used by Go's `sort.Strings`. -/
def goStrLe (a b : String) : Bool := charListLe a.data b.data

/-- The ascending order on member identifiers, as a proposition. -/
def goLe (a b : String) : Prop := goStrLe a b = true

instance : DecidableRel goLe := fun a b => inferInstanceAs (Decidable (_ = true))

theorem charListLe_total : ∀ a b : List Char, charListLe a b = true ∨ charListLe b a = true
  | [], _ => Or.inl rfl
  | _ :: _, [] => Or.inr rfl
  | a :: as, b :: bs => by
    rcases Nat.lt_trichotomy a.toNat b.toNat with h | h | h
    · exact Or.inl (by simp [charListLe, h])
    · rcases charListLe_total as bs with ih | ih
      · exact Or.inl (by simp [charListLe, h, ih])
      · exact Or.inr (by simp [charListLe, h.symm, ih])
    · exact Or.inr (by simp [charListLe, h])

theorem charListLe_trans :
    ∀ a b c : List Char, charListLe a b = true → charListLe b c = true →
      charListLe a c = true
  | [], _, _, _, _ => rfl
  | _ :: _, [], _, h, _ => by simp [charListLe] at h
  | _ :: _, _ :: _, [], _, h => by simp [charListLe] at h
  | a :: as, b :: bs, c :: cs, h1, h2 => by
    simp only [charListLe, Bool.or_eq_true, Bool.and_eq_true, decide_eq_true_eq] at h1 h2 ⊢
    rcases h1 with h1 | ⟨h1e, h1r⟩
    · rcases h2 with h2 | ⟨h2e, h2r⟩
      · exact Or.inl (by omega)
      · exact Or.inl (by omega)
    · rcases h2 with h2 | ⟨h2e, h2r⟩
      · exact Or.inl (by omega)
      · exact Or.inr ⟨by omega, charListLe_trans as bs cs h1r h2r⟩

instance : IsTotal String goLe := ⟨fun a b => charListLe_total a.data b.data⟩

instance : IsTrans String goLe :=
  ⟨fun a b c => charListLe_trans a.data b.data c.data⟩

/-- Result of Go's `sort.Strings`: the ascending byte-order sort of a string
slice's contents. -/
def goSortStrings (l : List String) : List String := List.insertionSort goLe l

theorem goSortStrings_sorted (l : List String) : List.Sorted goLe (goSortStrings l) :=
  List.sorted_insertionSort goLe l

theorem goSortStrings_perm (l : List String) : (goSortStrings l).Perm l :=
  List.perm_insertionSort goLe l

/-! ## A heap model for Go slices (`utils.go`, `role_resource.go`)

`sortStringSlice` and `sortPermissions` allocate a fresh backing array with
`make`, `copy` the input into it and sort the copy in place.  To state that
the input slice is untouched we model the Go heap explicitly: a slice value
is an index into a store of arrays. -/

/-- Heap of string arrays: `cells` maps a slice pointer to its contents and
`next` is the next fresh pointer. -/
structure GoHeap where
  cells : Nat → List String
  next : Nat

/-- Allocate a fresh array (Go `make`), returning the new heap and pointer. -/
def GoHeap.alloc (h : GoHeap) (v : List String) : GoHeap × Nat :=
  (⟨Function.update h.cells h.next v, h.next + 1⟩, h.next)

/-- Overwrite the array behind a pointer (an in-place mutation). -/
def GoHeap.write (h : GoHeap) (p : Nat) (v : List String) : GoHeap :=
  ⟨Function.update h.cells p v, h.next⟩

/-- Go's `copy(dst, src)`: copies `min (len dst) (len src)` elements into the
front of `dst`, leaving the rest of `dst` unchanged. -/
def goCopyInto (dst src : List String) : List String :=
  src.take (min dst.length src.length) ++ dst.drop (min dst.length src.length)

/-- The `sortStringSlice` helper of `utils.go`: nil in, nil out; otherwise
allocate `sorted := make([]string, len(slice))`, `copy(sorted, slice)`,
`sort.Strings(sorted)` and return the fresh slice. -/
def sortStringSlice (h : GoHeap) (s : Option Nat) : GoHeap × Option Nat :=
  match s with
  | none => (h, none)
  | some p =>
    let ar := h.alloc (List.replicate (h.cells p).length "")
    let h1 := ar.1
    let q := ar.2
    let h2 := h1.write q (goCopyInto (h1.cells q) (h1.cells p))
    let h3 := h2.write q (goSortStrings (h2.cells q))
    (h3, some q)

/-- The `sortPermissions` helper of `role_resource.go`: same copy-then-sort
shape but with no nil check. -/
def sortPermissions (h : GoHeap) (p : Nat) : GoHeap × Nat :=
  let ar := h.alloc (List.replicate (h.cells p).length "")
  let h1 := ar.1
  let q := ar.2
  let h2 := h1.write q (goCopyInto (h1.cells q) (h1.cells p))
  let h3 := h2.write q (goSortStrings (h2.cells q))
  (h3, q)

theorem goCopyInto_replicate (l : List String) :
    goCopyInto (List.replicate l.length "") l = l := by
  simp [goCopyInto]

theorem sortPermissions_cells (h : GoHeap) (p : Nat) (hp : p < h.next) :
    (sortPermissions h p).1.cells p = h.cells p ∧
      (sortPermissions h p).2 = h.next ∧
      (sortPermissions h p).1.cells (sortPermissions h p).2 =
        goSortStrings (h.cells p) := by
  have hne : h.next ≠ p := by omega
  have hne2 : p ≠ h.next := by omega
  refine ⟨?_, rfl, ?_⟩
  · simp [sortPermissions, GoHeap.alloc, GoHeap.write, Function.update, hne, hne2]
  · simp [sortPermissions, GoHeap.alloc, GoHeap.write, Function.update, hne, hne2,
      goCopyInto_replicate]

theorem sortStringSlice_some_cells (h : GoHeap) (p : Nat) (hp : p < h.next) :
    (sortStringSlice h (some p)).1.cells p = h.cells p ∧
      (sortStringSlice h (some p)).2 = some h.next ∧
      (sortStringSlice h (some p)).1.cells h.next = goSortStrings (h.cells p) := by
  have hne : h.next ≠ p := by omega
  have hne2 : p ≠ h.next := by omega
  refine ⟨?_, rfl, ?_⟩
  · simp [sortStringSlice, GoHeap.alloc, GoHeap.write, Function.update, hne, hne2]
  · simp [sortStringSlice, GoHeap.alloc, GoHeap.write, Function.update, hne, hne2,
      goCopyInto_replicate]

/-! ## Colon-separated composite identifiers (`utils.go`, organization-user)

`splitID` wraps Go's `strings.Split(id, ":")` and rejects inputs whose part
count differs from the expected one.  The organization-user resource builds
its composite ID as `organization_code + ":" + user_id` on Create and splits
it back on ImportState. -/

/-- Go's `strings.Split(s, ":")` on the character list of a string. -/
def splitOnColon : List Char → List (List Char)
  | [] => [[]]
  | c :: rest =>
    if c = ':' then [] :: splitOnColon rest
    else
      match splitOnColon rest with
      | [] => [[c]]
      | h :: t => (c :: h) :: t

/-- Go's `strings.Split(s, ":")` packaged back into strings. -/
def goSplitColon (s : String) : List String :=
  (splitOnColon s.data).map (fun l => String.mk l)

/-- The `splitID` helper of `utils.go`: split on colons and fail unless the
number of parts is exactly the expected one. -/
def splitID (id : String) (expectedParts : Nat) (format : String) :
    Except String (List String) :=
  let parts := goSplitColon id
  if parts.length ≠ expectedParts then
    Except.error ("invalid ID format. Expected format: " ++ format)
  else Except.ok parts

/-- The composite ID stored by `OrganizationUserResource.Create`. -/
def orgUserCreateID (organizationCode userID : String) : String :=
  organizationCode ++ ":" ++ userID

/-- The attribute pair recovered by `OrganizationUserResource.ImportState`:
`none` when `splitID` rejects the import ID. -/
def orgUserImportState (id : String) : Option (String × String) :=
  match splitID id 2 "organization_code:user_id" with
  | Except.error _ => none
  | Except.ok parts =>
    match parts with
    | [a, b] => some (a, b)
    | _ => none

theorem splitOnColon_ne_nil : ∀ l : List Char, splitOnColon l ≠ []
  | [] => by simp [splitOnColon]
  | c :: rest => by
    by_cases hc : c = ':'
    · simp [splitOnColon, hc]
    · have := splitOnColon_ne_nil rest
      simp only [splitOnColon, hc, if_false]
      match hr : splitOnColon rest with
      | [] => exact absurd hr this
      | h :: t => simp

theorem splitOnColon_length :
    ∀ l : List Char, (splitOnColon l).length = l.count ':' + 1
  | [] => by simp [splitOnColon]
  | c :: rest => by
    by_cases hc : c = ':'
    · simp [splitOnColon, hc, List.count_cons, splitOnColon_length rest]
    · have ih := splitOnColon_length rest
      have hne := splitOnColon_ne_nil rest
      simp only [splitOnColon, hc, if_false]
      match hr : splitOnColon rest with
      | [] => exact absurd hr hne
      | h :: t =>
        rw [hr] at ih
        simp only [List.length_cons] at ih ⊢
        simp [List.count_cons, hc, ih]

theorem splitOnColon_no_colon : ∀ l : List Char, ':' ∉ l → splitOnColon l = [l]
  | [], _ => rfl
  | c :: rest, h => by
    have hc : ¬ c = ':' := fun he => h (he ▸ List.mem_cons_self c rest)
    have ih := splitOnColon_no_colon rest (fun hm => h (List.mem_cons_of_mem c hm))
    simp only [splitOnColon, hc, if_false, ih]

theorem splitOnColon_append :
    ∀ a b : List Char, ':' ∉ a →
      splitOnColon (a ++ ':' :: b) = a :: splitOnColon b
  | [], b, _ => by simp [splitOnColon]
  | c :: as, b, h => by
    have hc : ¬ c = ':' := fun he => h (he ▸ List.mem_cons_self c as)
    have ih := splitOnColon_append as b (fun hm => h (List.mem_cons_of_mem c hm))
    simp only [List.cons_append, splitOnColon, hc, if_false]
    rw [List.append_eq, ih]

/-! ## Role permission reconciliation (`role_resource.go`, `Update`)

`RoleResource.Update` first updates the role details, then removes every
permission present in prior state but absent from the plan (one
`RemovePermission` call per member, iterating the prior-state list), then
adds the plan-only permissions in one sorted bulk `UpdatePermissions` call,
and finally re-reads the role.  Any error returns immediately without
writing state.  The gateway record carries the remote responses. -/

/-- Error message type for remote calls. -/
abbrev Err := String

/-- Terraform model of a role (`RoleResourceModel`); a null permissions set
is `none`. -/
structure RoleModel where
  id : String
  name : String
  key : String
  description : String
  permissions : Option (List String)
deriving DecidableEq

/-- Remote operations issued by `RoleResource.Update`. -/
inductive RoleOp where
  | updateDetails
  | removePermission (perm : String)
  | updatePermissions (perms : List String)
  | getRole
deriving DecidableEq

/-- Responses of the remote gateway for one role update cycle. -/
structure RoleGateway where
  updateErr : Option Err
  removePermErr : String → Option Err
  updatePermsErr : List String → Option Err
  getErr : Option Err
  getID : String
  getName : String
  getKey : String
  getDescription : String
  getPerms : List String

/-- Whether one operation fails against the gateway. -/
def RoleGateway.opFails (g : RoleGateway) : RoleOp → Bool
  | RoleOp.updateDetails => g.updateErr.isSome
  | RoleOp.removePermission p => (g.removePermErr p).isSome
  | RoleOp.updatePermissions l => (g.updatePermsErr l).isSome
  | RoleOp.getRole => g.getErr.isSome

/-- A gateway on which every call succeeds. -/
def RoleGateway.ok (g : RoleGateway) : Prop :=
  g.updateErr = none ∧ (∀ p, g.removePermErr p = none) ∧
    (∀ l, g.updatePermsErr l = none) ∧ g.getErr = none

/-- The removal loop of `RoleResource.Update`: walk the prior-state
permissions, remove each one missing from the plan, returning early on the
first failing call. -/
def roleRemoveLoop (g : RoleGateway) (planPerms : List String) :
    List String → List RoleOp × Option Err
  | [] => ([], none)
  | p :: rest =>
    if planPerms.contains p then roleRemoveLoop g planPerms rest
    else
      match g.removePermErr p with
      | some e => ([RoleOp.removePermission p], some e)
      | none =>
        let pr := roleRemoveLoop g planPerms rest
        (RoleOp.removePermission p :: pr.1, pr.2)

/-- The follow-up re-read and state write shared by both add branches. -/
def roleFinish (g : RoleGateway) (state : RoleModel) (trace : List RoleOp) :
    List RoleOp × Option Err × RoleModel :=
  match g.getErr with
  | some e => (trace ++ [RoleOp.getRole], some e, state)
  | none =>
    let sortedPerms := goSortStrings g.getPerms
    (trace ++ [RoleOp.getRole], none,
      { id := g.getID, name := g.getName, key := g.getKey,
        description := g.getDescription,
        permissions := if sortedPerms.length > 0 then some sortedPerms else none })

/-- `RoleResource.Update`: returns the trace of remote operations, the error
if any, and the persisted state record (the prior record when any call
failed, since the method returns before `resp.State.Set`). -/
def runRoleUpdate (g : RoleGateway) (plan state : RoleModel) :
    List RoleOp × Option Err × RoleModel :=
  match g.updateErr with
  | some e => ([RoleOp.updateDetails], some e, state)
  | none =>
    let planPerms := plan.permissions.getD []
    let statePerms := state.permissions.getD []
    let pr := roleRemoveLoop g planPerms statePerms
    match pr.2 with
    | some e => (RoleOp.updateDetails :: pr.1, some e, state)
    | none =>
      let toAdd := planPerms.filter (fun p => !statePerms.contains p)
      if toAdd.length > 0 then
        let sortedAdd := goSortStrings toAdd
        match g.updatePermsErr sortedAdd with
        | some e =>
          (RoleOp.updateDetails :: pr.1 ++ [RoleOp.updatePermissions sortedAdd],
            some e, state)
        | none =>
          roleFinish g state
            (RoleOp.updateDetails :: pr.1 ++ [RoleOp.updatePermissions sortedAdd])
      else roleFinish g state (RoleOp.updateDetails :: pr.1)

/-- Permission identifiers removed by a trace. -/
def roleTraceRemovals (t : List RoleOp) : List String :=
  t.filterMap (fun o =>
    match o with
    | RoleOp.removePermission p => some p
    | _ => none)

/-- Permission identifiers added by a trace (members of the bulk calls). -/
def roleTraceAdds (t : List RoleOp) : List String :=
  (t.filterMap (fun o =>
    match o with
    | RoleOp.updatePermissions l => some l
    | _ => none)).flatten

theorem roleRemoveLoop_ok (g : RoleGateway) (planPerms : List String)
    (h : ∀ p, g.removePermErr p = none) :
    ∀ l, roleRemoveLoop g planPerms l =
      ((l.filter (fun p => !planPerms.contains p)).map RoleOp.removePermission, none)
  | [] => rfl
  | p :: rest => by
    by_cases hc : p ∈ planPerms <;>
      simp [roleRemoveLoop, hc, h, roleRemoveLoop_ok g planPerms h rest]

theorem roleRemoveLoop_err (g : RoleGateway) (planPerms : List String) :
    ∀ l t e, roleRemoveLoop g planPerms l = (t, some e) →
      ∃ pre p, t = pre ++ [RoleOp.removePermission p] ∧
        g.removePermErr p = some e ∧ ∀ o ∈ pre, g.opFails o = false
  | [], t, e, h => by simp [roleRemoveLoop] at h
  | p :: rest, t, e, h => by
    by_cases hc : planPerms.contains p = true
    · rw [roleRemoveLoop, if_pos hc] at h
      exact roleRemoveLoop_err g planPerms rest t e h
    · rw [roleRemoveLoop, if_neg hc] at h
      match hrp : g.removePermErr p with
      | some e' =>
        rw [hrp, Prod.mk.injEq] at h
        obtain ⟨ht, he⟩ := h
        have he' : e' = e := Option.some.inj he
        exact ⟨[], p, by simp [← ht], by rw [hrp, he'], by simp⟩
      | none =>
        rw [hrp, Prod.mk.injEq] at h
        obtain ⟨ht, he⟩ := h
        obtain ⟨pre, q, hq1, hq2, hq3⟩ :=
          roleRemoveLoop_err g planPerms rest (roleRemoveLoop g planPerms rest).1 e
            (by rw [← he])
        refine ⟨RoleOp.removePermission p :: pre, q, ?_, hq2, ?_⟩
        · rw [← ht, hq1]; simp
        · intro o ho
          rcases List.mem_cons.mp ho with h1 | h1
          · subst h1; simp [RoleGateway.opFails, hrp]
          · exact hq3 o h1

theorem runRoleUpdate_ok (g : RoleGateway) (plan state : RoleModel)
    (hg : g.ok) :
    runRoleUpdate g plan state =
      (RoleOp.updateDetails ::
          ((state.permissions.getD []).filter
              (fun p => !(plan.permissions.getD []).contains p)).map
            RoleOp.removePermission ++
          (if ((plan.permissions.getD []).filter
                (fun p => !(state.permissions.getD []).contains p)).length > 0 then
            [RoleOp.updatePermissions
              (goSortStrings
                ((plan.permissions.getD []).filter
                  (fun p => !(state.permissions.getD []).contains p)))]
          else []) ++ [RoleOp.getRole],
        none,
        { id := g.getID, name := g.getName, key := g.getKey,
          description := g.getDescription,
          permissions :=
            if (goSortStrings g.getPerms).length > 0 then
              some (goSortStrings g.getPerms)
            else none }) := by
  obtain ⟨h1, h2, h3, h4⟩ := hg
  simp only [runRoleUpdate, h1, roleRemoveLoop_ok g (plan.permissions.getD []) h2,
    roleFinish, h3, h4]
  by_cases hl :
      0 < (List.filter (fun p => !decide (p ∈ state.permissions.getD []))
            (plan.permissions.getD [])).length <;>
    simp [hl]

/-! ## Organization-user role reconciliation (`OrganizationUserResource.Update`)

When the planned role list differs from the state's, the resource re-reads
the user's current roles from the API, removes every current role missing
from the desired list (one call per member, in the API's list order), then
adds every desired role missing from the current list (one call per member,
in the declared order).  On success the plan is persisted; on any error the
method returns without writing state. -/

/-- Terraform model of an organization-user membership
(`OrganizationUserResourceModel`). -/
structure OrgUserModel where
  id : String
  organizationCode : String
  userID : String
  roles : Option (List String)
  permissions : Option (List String)
deriving DecidableEq

/-- Remote operations issued by `OrganizationUserResource.Update`. -/
inductive OrgUserOp where
  | getUserRoles
  | removeUserRole (roleID : String)
  | addUserRole (roleID : String)
deriving DecidableEq

/-- Responses of the remote gateway for one organization-user update. -/
structure OrgUserGateway where
  getRolesErr : Option Err
  currentRoles : List String
  removeRoleErr : String → Option Err
  addRoleErr : String → Option Err

/-- Whether one operation fails against the gateway. -/
def OrgUserGateway.opFails (g : OrgUserGateway) : OrgUserOp → Bool
  | OrgUserOp.getUserRoles => g.getRolesErr.isSome
  | OrgUserOp.removeUserRole r => (g.removeRoleErr r).isSome
  | OrgUserOp.addUserRole r => (g.addRoleErr r).isSome

/-- A gateway on which every call succeeds. -/
def OrgUserGateway.ok (g : OrgUserGateway) : Prop :=
  g.getRolesErr = none ∧ (∀ r, g.removeRoleErr r = none) ∧
    (∀ r, g.addRoleErr r = none)

/-- The removal loop: walk the current roles, removing each one missing from
the desired list, returning early on the first failing call. -/
def orgUserRemoveLoop (g : OrgUserGateway) (desired : List String) :
    List String → List OrgUserOp × Option Err
  | [] => ([], none)
  | r :: rest =>
    if desired.contains r then orgUserRemoveLoop g desired rest
    else
      match g.removeRoleErr r with
      | some e => ([OrgUserOp.removeUserRole r], some e)
      | none =>
        let pr := orgUserRemoveLoop g desired rest
        (OrgUserOp.removeUserRole r :: pr.1, pr.2)

/-- The addition loop: walk the desired roles, adding each one missing from
the current list, returning early on the first failing call. -/
def orgUserAddLoop (g : OrgUserGateway) (current : List String) :
    List String → List OrgUserOp × Option Err
  | [] => ([], none)
  | r :: rest =>
    if current.contains r then orgUserAddLoop g current rest
    else
      match g.addRoleErr r with
      | some e => ([OrgUserOp.addUserRole r], some e)
      | none =>
        let pa := orgUserAddLoop g current rest
        (OrgUserOp.addUserRole r :: pa.1, pa.2)

/-- `OrganizationUserResource.Update`: trace of remote operations, error if
any, and the persisted state record (on success the plan is persisted, on
error the prior state is kept). -/
def runOrgUserUpdate (g : OrgUserGateway) (plan state : OrgUserModel) :
    List OrgUserOp × Option Err × OrgUserModel :=
  if plan.roles = state.roles then ([], none, plan)
  else
    match g.getRolesErr with
    | some e => ([OrgUserOp.getUserRoles], some e, state)
    | none =>
      let current := g.currentRoles
      let desired := plan.roles.getD []
      let pr := orgUserRemoveLoop g desired current
      match pr.2 with
      | some e => (OrgUserOp.getUserRoles :: pr.1, some e, state)
      | none =>
        let pa := orgUserAddLoop g current desired
        match pa.2 with
        | some e => (OrgUserOp.getUserRoles :: pr.1 ++ pa.1, some e, state)
        | none => (OrgUserOp.getUserRoles :: pr.1 ++ pa.1, none, plan)

/-- Role identifiers removed by a trace. -/
def orgUserTraceRemovals (t : List OrgUserOp) : List String :=
  t.filterMap (fun o =>
    match o with
    | OrgUserOp.removeUserRole r => some r
    | _ => none)

/-- Role identifiers added by a trace. -/
def orgUserTraceAdds (t : List OrgUserOp) : List String :=
  t.filterMap (fun o =>
    match o with
    | OrgUserOp.addUserRole r => some r
    | _ => none)

theorem orgUserRemoveLoop_ok (g : OrgUserGateway) (desired : List String)
    (h : ∀ r, g.removeRoleErr r = none) :
    ∀ l, orgUserRemoveLoop g desired l =
      ((l.filter (fun r => !desired.contains r)).map OrgUserOp.removeUserRole, none)
  | [] => rfl
  | r :: rest => by
    by_cases hc : r ∈ desired <;>
      simp [orgUserRemoveLoop, hc, h, orgUserRemoveLoop_ok g desired h rest]

theorem orgUserAddLoop_ok (g : OrgUserGateway) (current : List String)
    (h : ∀ r, g.addRoleErr r = none) :
    ∀ l, orgUserAddLoop g current l =
      ((l.filter (fun r => !current.contains r)).map OrgUserOp.addUserRole, none)
  | [] => rfl
  | r :: rest => by
    by_cases hc : r ∈ current <;>
      simp [orgUserAddLoop, hc, h, orgUserAddLoop_ok g current h rest]

theorem runOrgUserUpdate_ok (g : OrgUserGateway) (plan state : OrgUserModel)
    (hg : g.ok) (hne : plan.roles ≠ state.roles) :
    runOrgUserUpdate g plan state =
      (OrgUserOp.getUserRoles ::
          (g.currentRoles.filter
              (fun r => !(plan.roles.getD []).contains r)).map
            OrgUserOp.removeUserRole ++
          ((plan.roles.getD []).filter
              (fun r => !g.currentRoles.contains r)).map OrgUserOp.addUserRole,
        none, plan) := by
  obtain ⟨h1, h2, h3⟩ := hg
  simp only [runOrgUserUpdate, hne, if_false, h1,
    orgUserRemoveLoop_ok g (plan.roles.getD []) h2,
    orgUserAddLoop_ok g g.currentRoles h3]

theorem roleRemoveLoop_none (g : RoleGateway) (planPerms : List String) :
    ∀ l t, roleRemoveLoop g planPerms l = (t, none) →
      ∀ o ∈ t, g.opFails o = false
  | [], t, h => by
    rw [roleRemoveLoop, Prod.mk.injEq] at h
    simp [← h.1]
  | p :: rest, t, h => by
    by_cases hc : planPerms.contains p = true
    · rw [roleRemoveLoop, if_pos hc] at h
      exact roleRemoveLoop_none g planPerms rest t h
    · rw [roleRemoveLoop, if_neg hc] at h
      match hrp : g.removePermErr p with
      | some e' => rw [hrp, Prod.mk.injEq] at h; exact absurd h.2 (by simp)
      | none =>
        rw [hrp, Prod.mk.injEq] at h
        intro o ho
        rw [← h.1] at ho
        rcases List.mem_cons.mp ho with h1 | h1
        · subst h1; simp [RoleGateway.opFails, hrp]
        · exact roleRemoveLoop_none g planPerms rest _
            (by rw [← h.2]) o h1

theorem orgUserRemoveLoop_none (g : OrgUserGateway) (desired : List String) :
    ∀ l t, orgUserRemoveLoop g desired l = (t, none) →
      ∀ o ∈ t, g.opFails o = false
  | [], t, h => by
    rw [orgUserRemoveLoop, Prod.mk.injEq] at h
    simp [← h.1]
  | r :: rest, t, h => by
    by_cases hc : desired.contains r = true
    · rw [orgUserRemoveLoop, if_pos hc] at h
      exact orgUserRemoveLoop_none g desired rest t h
    · rw [orgUserRemoveLoop, if_neg hc] at h
      match hrp : g.removeRoleErr r with
      | some e' => rw [hrp, Prod.mk.injEq] at h; exact absurd h.2 (by simp)
      | none =>
        rw [hrp, Prod.mk.injEq] at h
        intro o ho
        rw [← h.1] at ho
        rcases List.mem_cons.mp ho with h1 | h1
        · subst h1; simp [OrgUserGateway.opFails, hrp]
        · exact orgUserRemoveLoop_none g desired rest _
            (by rw [← h.2]) o h1

theorem orgUserRemoveLoop_err (g : OrgUserGateway) (desired : List String) :
    ∀ l t e, orgUserRemoveLoop g desired l = (t, some e) →
      ∃ pre r, t = pre ++ [OrgUserOp.removeUserRole r] ∧
        g.removeRoleErr r = some e ∧ ∀ o ∈ pre, g.opFails o = false
  | [], t, e, h => by simp [orgUserRemoveLoop] at h
  | r :: rest, t, e, h => by
    by_cases hc : desired.contains r = true
    · rw [orgUserRemoveLoop, if_pos hc] at h
      exact orgUserRemoveLoop_err g desired rest t e h
    · rw [orgUserRemoveLoop, if_neg hc] at h
      match hrp : g.removeRoleErr r with
      | some e' =>
        rw [hrp, Prod.mk.injEq] at h
        obtain ⟨ht, he⟩ := h
        have he' : e' = e := Option.some.inj he
        exact ⟨[], r, by simp [← ht], by rw [hrp, he'], by simp⟩
      | none =>
        rw [hrp, Prod.mk.injEq] at h
        obtain ⟨ht, he⟩ := h
        obtain ⟨pre, q, hq1, hq2, hq3⟩ :=
          orgUserRemoveLoop_err g desired rest (orgUserRemoveLoop g desired rest).1 e
            (by rw [← he])
        refine ⟨OrgUserOp.removeUserRole r :: pre, q, ?_, hq2, ?_⟩
        · rw [← ht, hq1]; simp
        · intro o ho
          rcases List.mem_cons.mp ho with h1 | h1
          · subst h1; simp [OrgUserGateway.opFails, hrp]
          · exact hq3 o h1

theorem orgUserAddLoop_err (g : OrgUserGateway) (current : List String) :
    ∀ l t e, orgUserAddLoop g current l = (t, some e) →
      ∃ pre r, t = pre ++ [OrgUserOp.addUserRole r] ∧
        g.addRoleErr r = some e ∧ ∀ o ∈ pre, g.opFails o = false
  | [], t, e, h => by simp [orgUserAddLoop] at h
  | r :: rest, t, e, h => by
    by_cases hc : current.contains r = true
    · rw [orgUserAddLoop, if_pos hc] at h
      exact orgUserAddLoop_err g current rest t e h
    · rw [orgUserAddLoop, if_neg hc] at h
      match hrp : g.addRoleErr r with
      | some e' =>
        rw [hrp, Prod.mk.injEq] at h
        obtain ⟨ht, he⟩ := h
        have he' : e' = e := Option.some.inj he
        exact ⟨[], r, by simp [← ht], by rw [hrp, he'], by simp⟩
      | none =>
        rw [hrp, Prod.mk.injEq] at h
        obtain ⟨ht, he⟩ := h
        obtain ⟨pre, q, hq1, hq2, hq3⟩ :=
          orgUserAddLoop_err g current rest (orgUserAddLoop g current rest).1 e
            (by rw [← he])
        refine ⟨OrgUserOp.addUserRole r :: pre, q, ?_, hq2, ?_⟩
        · rw [← ht, hq1]; simp
        · intro o ho
          rcases List.mem_cons.mp ho with h1 | h1
          · subst h1; simp [OrgUserGateway.opFails, hrp]
          · exact hq3 o h1

theorem runRoleUpdate_err (g : RoleGateway) (plan state : RoleModel)
    (t : List RoleOp) (e : Err) (s' : RoleModel)
    (h : runRoleUpdate g plan state = (t, some e, s')) :
    s' = state ∧ ∃ pre op, t = pre ++ [op] ∧ g.opFails op = true ∧
      ∀ o ∈ pre, g.opFails o = false := by
  rcases hU : g.updateErr with _ | e0
  · simp only [runRoleUpdate, hU] at h
    rcases hpr : roleRemoveLoop g (plan.permissions.getD [])
        (state.permissions.getD []) with ⟨t1, oe⟩
    rw [hpr] at h
    cases oe with
    | some e1 =>
      dsimp only at h
      rw [Prod.mk.injEq, Prod.mk.injEq] at h
      obtain ⟨ht, _, hs⟩ := h
      obtain ⟨pre, p, hp1, hp2, hp3⟩ := roleRemoveLoop_err g _ _ t1 e1 hpr
      refine ⟨hs.symm, RoleOp.updateDetails :: pre, RoleOp.removePermission p,
        ?_, by simp [RoleGateway.opFails, hp2], ?_⟩
      · rw [← ht, hp1]; simp
      · intro o ho
        rcases List.mem_cons.mp ho with h1 | h1
        · subst h1; simp [RoleGateway.opFails, hU]
        · exact hp3 o h1
    | none =>
      dsimp only at h
      have hall : ∀ o ∈ t1, g.opFails o = false :=
        roleRemoveLoop_none g _ _ t1 hpr
      by_cases hl :
          ((plan.permissions.getD []).filter
            (fun p => !(state.permissions.getD []).contains p)).length > 0
      · rw [if_pos hl] at h
        rcases hA : g.updatePermsErr
            (goSortStrings
              ((plan.permissions.getD []).filter
                (fun p => !(state.permissions.getD []).contains p))) with _ | e2
        · rw [hA] at h
          dsimp only at h
          rcases hG : g.getErr with _ | e3
          · rw [roleFinish, hG] at h
            rw [Prod.mk.injEq, Prod.mk.injEq] at h
            exact absurd h.2.1 (by simp)
          · rw [roleFinish, hG] at h
            rw [Prod.mk.injEq, Prod.mk.injEq] at h
            obtain ⟨ht, _, hs⟩ := h
            refine ⟨hs.symm,
              RoleOp.updateDetails :: t1 ++
                [RoleOp.updatePermissions
                  (goSortStrings
                    ((plan.permissions.getD []).filter
                      (fun p => !(state.permissions.getD []).contains p)))],
              RoleOp.getRole, ?_, by simp [RoleGateway.opFails, hG], ?_⟩
            · rw [← ht]
            · intro o ho
              rcases List.mem_cons.mp ho with h1 | h1
              · subst h1; simp [RoleGateway.opFails, hU]
              · rcases List.mem_append.mp h1 with h2 | h2
                · exact hall o h2
                · rw [List.mem_singleton] at h2
                  subst h2
                  simp only [RoleGateway.opFails, hA, Option.isSome_none]
        · rw [hA] at h
          dsimp only at h
          rw [Prod.mk.injEq, Prod.mk.injEq] at h
          obtain ⟨ht, _, hs⟩ := h
          refine ⟨hs.symm, RoleOp.updateDetails :: t1,
            RoleOp.updatePermissions
              (goSortStrings
                ((plan.permissions.getD []).filter
                  (fun p => !(state.permissions.getD []).contains p))),
            ?_, by simp only [RoleGateway.opFails, hA, Option.isSome_some], ?_⟩
          · rw [← ht]
          · intro o ho
            rcases List.mem_cons.mp ho with h1 | h1
            · subst h1; simp [RoleGateway.opFails, hU]
            · exact hall o h1
      · rw [if_neg hl] at h
        rcases hG : g.getErr with _ | e3
        · rw [roleFinish, hG] at h
          rw [Prod.mk.injEq, Prod.mk.injEq] at h
          exact absurd h.2.1 (by simp)
        · rw [roleFinish, hG] at h
          rw [Prod.mk.injEq, Prod.mk.injEq] at h
          obtain ⟨ht, _, hs⟩ := h
          refine ⟨hs.symm, RoleOp.updateDetails :: t1, RoleOp.getRole,
            ?_, by simp [RoleGateway.opFails, hG], ?_⟩
          · rw [← ht]
          · intro o ho
            rcases List.mem_cons.mp ho with h1 | h1
            · subst h1; simp [RoleGateway.opFails, hU]
            · exact hall o h1
  · simp only [runRoleUpdate, hU] at h
    rw [Prod.mk.injEq, Prod.mk.injEq] at h
    obtain ⟨ht, _, hs⟩ := h
    exact ⟨hs.symm, [], RoleOp.updateDetails, by simp [← ht],
      by simp [RoleGateway.opFails, hU], by simp⟩

theorem orgUserAddLoop_none (g : OrgUserGateway) (current : List String) :
    ∀ l t, orgUserAddLoop g current l = (t, none) →
      ∀ o ∈ t, g.opFails o = false
  | [], t, h => by
    rw [orgUserAddLoop, Prod.mk.injEq] at h
    simp [← h.1]
  | r :: rest, t, h => by
    by_cases hc : current.contains r = true
    · rw [orgUserAddLoop, if_pos hc] at h
      exact orgUserAddLoop_none g current rest t h
    · rw [orgUserAddLoop, if_neg hc] at h
      match hrp : g.addRoleErr r with
      | some e' => rw [hrp, Prod.mk.injEq] at h; exact absurd h.2 (by simp)
      | none =>
        rw [hrp, Prod.mk.injEq] at h
        intro o ho
        rw [← h.1] at ho
        rcases List.mem_cons.mp ho with h1 | h1
        · subst h1; simp [OrgUserGateway.opFails, hrp]
        · exact orgUserAddLoop_none g current rest _
            (by rw [← h.2]) o h1

theorem runOrgUserUpdate_err (g : OrgUserGateway) (plan state : OrgUserModel)
    (t : List OrgUserOp) (e : Err) (s' : OrgUserModel)
    (h : runOrgUserUpdate g plan state = (t, some e, s')) :
    s' = state ∧ ∃ pre op, t = pre ++ [op] ∧ g.opFails op = true ∧
      ∀ o ∈ pre, g.opFails o = false := by
  by_cases hpe : plan.roles = state.roles
  · rw [runOrgUserUpdate, if_pos hpe, Prod.mk.injEq, Prod.mk.injEq] at h
    exact absurd h.2.1 (by simp)
  · rw [runOrgUserUpdate, if_neg hpe] at h
    rcases hR : g.getRolesErr with _ | e0
    · rw [hR] at h
      dsimp only at h
      rcases hpr : orgUserRemoveLoop g (plan.roles.getD []) g.currentRoles
          with ⟨t1, oe⟩
      rw [hpr] at h
      cases oe with
      | some e1 =>
        dsimp only at h
        rw [Prod.mk.injEq, Prod.mk.injEq] at h
        obtain ⟨ht, _, hs⟩ := h
        obtain ⟨pre, r, hp1, hp2, hp3⟩ := orgUserRemoveLoop_err g _ _ t1 e1 hpr
        refine ⟨hs.symm, OrgUserOp.getUserRoles :: pre, OrgUserOp.removeUserRole r,
          ?_, by simp [OrgUserGateway.opFails, hp2], ?_⟩
        · rw [← ht, hp1, List.cons_append]
        · intro o ho
          rcases List.mem_cons.mp ho with h1 | h1
          · subst h1; simp [OrgUserGateway.opFails, hR]
          · exact hp3 o h1
      | none =>
        dsimp only at h
        have hall1 : ∀ o ∈ t1, g.opFails o = false :=
          orgUserRemoveLoop_none g _ _ t1 hpr
        rcases hpa : orgUserAddLoop g g.currentRoles (plan.roles.getD [])
            with ⟨t2, oa⟩
        rw [hpa] at h
        cases oa with
        | some e2 =>
          dsimp only at h
          rw [Prod.mk.injEq, Prod.mk.injEq] at h
          obtain ⟨ht, _, hs⟩ := h
          obtain ⟨pre, r, hp1, hp2, hp3⟩ := orgUserAddLoop_err g _ _ t2 e2 hpa
          refine ⟨hs.symm, OrgUserOp.getUserRoles :: t1 ++ pre,
            OrgUserOp.addUserRole r,
            ?_, by simp [OrgUserGateway.opFails, hp2], ?_⟩
          · rw [← ht, hp1]; simp
          · intro o ho
            rcases List.mem_cons.mp ho with h1 | h1
            · subst h1; simp [OrgUserGateway.opFails, hR]
            · rcases List.mem_append.mp h1 with h2 | h2
              · exact hall1 o h2
              · exact hp3 o h2
        | none =>
          dsimp only at h
          rw [Prod.mk.injEq, Prod.mk.injEq] at h
          exact absurd h.2.1 (by simp)
    · rw [hR] at h
      dsimp only at h
      rw [Prod.mk.injEq, Prod.mk.injEq] at h
      obtain ⟨ht, _, hs⟩ := h
      exact ⟨hs.symm, [], OrgUserOp.getUserRoles, by simp [← ht],
        by simp [OrgUserGateway.opFails, hR], by simp⟩

/-! ## User identity reconciliation (`user_resource.go`)

Identities whose type starts with `oauth2:` are externally managed.  The
plan modifier merges them from state back into the plan; `Update` re-reads
the remote identities, merges the `oauth2:` ones into the planned set,
validates that an email identity is present, adds the missing non-`oauth2:`
identities one by one (there is no identity removal call at all), and
persists the freshly read final identity list.  `Create` validates the email
identity before issuing any remote call. -/

/-- One user identity: a type (`email`, `username`, `phone`, `oauth2:...`)
and a value. -/
structure Identity where
  type : String
  value : String
deriving DecidableEq

/-- Character-list version of Go's `strings.HasPrefix` (pattern first). -/
def charsStarts : List Char → List Char → Bool
  | [], _ => true
  | _ :: _, [] => false
  | p :: ps, c :: cs => p = c && charsStarts ps cs

/-- Go's `strings.HasPrefix(s, pat)`. -/
def goStrStarts (s pat : String) : Bool := charsStarts pat.data s.data

/-- Whether an identity is externally managed
(`strings.HasPrefix(identity.Type, "oauth2:")`). -/
def isOAuth2 (i : Identity) : Bool := goStrStarts i.type "oauth2:"

/-- The `type:value` key used by `Update` to test identity existence. -/
def identityKey (i : Identity) : String := i.type ++ ":" ++ i.value

/-- `identitiesModifier.PlanModifyList`: with no state there is nothing to
preserve; otherwise the state's `oauth2:` identities, if any, are appended
to the planned identities. -/
def identitiesPlanModify (stateValue : Option (List Identity))
    (planValue : List Identity) : List Identity :=
  match stateValue with
  | none => planValue
  | some stateIdentities =>
    let oauth2Identities := stateIdentities.filter (fun i => isOAuth2 i)
    if oauth2Identities.isEmpty then planValue
    else planValue ++ oauth2Identities

/-- Terraform model of a user (`UserResourceModel`). -/
structure UserModel where
  id : String
  firstName : Option String
  lastName : Option String
  isSuspended : Option Bool
  organizationCode : Option String
  createdOn : String
  updatedOn : String
  identities : List Identity
deriving DecidableEq

/-- Remote operations issued by the user resource. -/
inductive UserOp where
  | createUser
  | updateUser
  | getIdentities
  | addIdentity (i : Identity)
  | getUser
deriving DecidableEq

/-- Responses of the remote gateway for one user reconciliation. -/
structure UserGateway where
  createErr : Option Err
  createdID : String
  updateErr : Option Err
  getIdentitiesErr : Option Err
  remoteIdentities : List Identity
  addIdentityErr : Identity → Option Err
  getUserErr : Option Err
  finalGetIdentitiesErr : Option Err
  userFirstName : String
  userLastName : String
  userIsSuspended : Bool
  userCreatedOn : String
  userUpdatedOn : String

/-- The identity-add loop of `UserResource.Update`: walk the merged
identities, skip the `oauth2:` ones, skip those already keyed in state, add
the rest one by one (the remote set grows with each successful add),
returning early on the first failing call. -/
def userAddLoop (g : UserGateway) (existingKeys : List String) :
    List Identity → List Identity → List UserOp × List Identity × Option Err
  | [], remote => ([], remote, none)
  | i :: rest, remote =>
    if isOAuth2 i then userAddLoop g existingKeys rest remote
    else if existingKeys.contains (identityKey i) then
      userAddLoop g existingKeys rest remote
    else
      match g.addIdentityErr i with
      | some e => ([UserOp.addIdentity i], remote, some e)
      | none =>
        let r := userAddLoop g existingKeys rest (remote ++ [i])
        (UserOp.addIdentity i :: r.1, r.2.1, r.2.2)

/-- `UserResource.Update`: the profile update call, the identity read, the
email validation on the merged identities, the add loop, the final re-reads,
and the state write (prior state kept on any error). -/
def runUserUpdate (g : UserGateway) (plan state : UserModel) :
    List UserOp × Option Err × UserModel :=
  match g.updateErr with
  | some e => ([UserOp.updateUser], some e, state)
  | none =>
    match g.getIdentitiesErr with
    | some e => ([UserOp.updateUser, UserOp.getIdentities], some e, state)
    | none =>
      let oauth2Identities := g.remoteIdentities.filter (fun i => isOAuth2 i)
      let merged := plan.identities ++ oauth2Identities
      if !(merged.any (fun i => i.type = "email")) then
        ([UserOp.updateUser, UserOp.getIdentities],
          some "Missing Email Identity", state)
      else
        let existingKeys := state.identities.map identityKey
        let al := userAddLoop g existingKeys merged g.remoteIdentities
        match al.2.2 with
        | some e => ([UserOp.updateUser, UserOp.getIdentities] ++ al.1, some e, state)
        | none =>
          match g.getUserErr with
          | some e =>
            ([UserOp.updateUser, UserOp.getIdentities] ++ al.1 ++ [UserOp.getUser],
              some e, state)
          | none =>
            match g.finalGetIdentitiesErr with
            | some e =>
              ([UserOp.updateUser, UserOp.getIdentities] ++ al.1 ++
                  [UserOp.getUser, UserOp.getIdentities], some e, state)
            | none =>
              ([UserOp.updateUser, UserOp.getIdentities] ++ al.1 ++
                  [UserOp.getUser, UserOp.getIdentities], none,
                { plan with
                  identities := al.2.1
                  firstName := plan.firstName.map (fun _ => g.userFirstName)
                  lastName := plan.lastName.map (fun _ => g.userLastName)
                  isSuspended := plan.isSuspended.map (fun _ => g.userIsSuspended)
                  createdOn := g.userCreatedOn
                  updatedOn := g.userUpdatedOn })

/-- The re-read and state write ending a successful `UserResource.Create`. -/
def userCreateFinish (g : UserGateway) (plan : UserModel) (trace : List UserOp) :
    List UserOp × Option Err × Option UserModel :=
  match g.getUserErr with
  | some e => (trace ++ [UserOp.getUser], some e, none)
  | none =>
    (trace ++ [UserOp.getUser], none,
      some { plan with
        id := g.createdID
        firstName := plan.firstName.map (fun _ => g.userFirstName)
        lastName := plan.lastName.map (fun _ => g.userLastName)
        isSuspended := plan.isSuspended.map (fun _ => g.userIsSuspended)
        createdOn := g.userCreatedOn
        updatedOn := g.userUpdatedOn })

/-- `UserResource.Create`: the email-identity validation happens before the
create call; the optional suspension update follows the create; the final
`Get` feeds the written state. -/
def runUserCreate (g : UserGateway) (plan : UserModel) :
    List UserOp × Option Err × Option UserModel :=
  let hasEmail := plan.identities.any (fun i => i.type = "email")
  if !hasEmail then ([], some "Missing Email Identity", none)
  else
    match g.createErr with
    | some e => ([UserOp.createUser], some e, none)
    | none =>
      if plan.isSuspended.isSome then
        match g.updateErr with
        | some e => ([UserOp.createUser, UserOp.updateUser], some e, none)
        | none => userCreateFinish g plan [UserOp.createUser, UserOp.updateUser]
      else userCreateFinish g plan [UserOp.createUser]

theorem isOAuth2_of_email (i : Identity) (h : i.type = "email") :
    isOAuth2 i = false := by
  simp only [isOAuth2, goStrStarts, h]
  decide

theorem userAddLoop_remote (g : UserGateway) (keys : List String) :
    ∀ l remote, ∃ extra,
      (userAddLoop g keys l remote).2.1 = remote ++ extra
  | [], remote => ⟨[], by simp [userAddLoop]⟩
  | i :: rest, remote => by
    by_cases h1 : isOAuth2 i = true
    · rw [userAddLoop, if_pos h1]
      exact userAddLoop_remote g keys rest remote
    · rw [userAddLoop, if_neg h1]
      by_cases h2 : keys.contains (identityKey i) = true
      · rw [if_pos h2]
        exact userAddLoop_remote g keys rest remote
      · rw [if_neg h2]
        match ha : g.addIdentityErr i with
        | some e => exact ⟨[], by simp⟩
        | none =>
          obtain ⟨extra, hex⟩ := userAddLoop_remote g keys rest (remote ++ [i])
          exact ⟨[i] ++ extra, by simp [hex]⟩

theorem userAddLoop_no_oauth2 (g : UserGateway) (keys : List String) :
    ∀ l remote i, UserOp.addIdentity i ∈ (userAddLoop g keys l remote).1 →
      isOAuth2 i = false
  | [], remote, i, h => by simp [userAddLoop] at h
  | j :: rest, remote, i, h => by
    by_cases h1 : isOAuth2 j = true
    · rw [userAddLoop, if_pos h1] at h
      exact userAddLoop_no_oauth2 g keys rest remote i h
    · rw [userAddLoop, if_neg h1] at h
      by_cases h2 : keys.contains (identityKey j) = true
      · rw [if_pos h2] at h
        exact userAddLoop_no_oauth2 g keys rest remote i h
      · rw [if_neg h2] at h
        match ha : g.addIdentityErr j with
        | some e =>
          rw [ha] at h
          simp only [List.mem_singleton, UserOp.addIdentity.injEq] at h
          rw [h]
          exact Bool.eq_false_iff.mpr h1
        | none =>
          rw [ha] at h
          dsimp only at h
          rcases List.mem_cons.mp h with hx | hx
          · rw [UserOp.addIdentity.injEq] at hx
            rw [hx]
            exact Bool.eq_false_iff.mpr h1
          · exact userAddLoop_no_oauth2 g keys rest (remote ++ [j]) i hx

theorem identitiesPlanModify_preserves (stateIds planned : List Identity)
    (f : Identity) (hf : f ∈ stateIds) (ho : isOAuth2 f = true) :
    f ∈ identitiesPlanModify (some stateIds) planned := by
  have hmem : f ∈ stateIds.filter (fun i => isOAuth2 i) :=
    List.mem_filter.mpr ⟨hf, ho⟩
  have hne : ¬ (stateIds.filter (fun i => isOAuth2 i)).isEmpty = true := by
    intro he
    rw [List.isEmpty_iff] at he
    rw [he] at hmem
    exact absurd hmem (List.not_mem_nil f)
  simp only [identitiesPlanModify, if_neg hne]
  exact List.mem_append_right _ hmem


theorem runUserUpdate_cases (g : UserGateway) (plan state : UserModel) :
    ((runUserUpdate g plan state).2.1).isSome = true ∨
      (runUserUpdate g plan state).2.2.identities =
        (userAddLoop g (state.identities.map identityKey)
          (plan.identities ++ g.remoteIdentities.filter fun i => isOAuth2 i)
          g.remoteIdentities).2.1 := by
  simp only [runUserUpdate]
  split
  · exact Or.inl rfl
  · split
    · exact Or.inl rfl
    · split
      · exact Or.inl rfl
      · split
        · exact Or.inl rfl
        · split
          · exact Or.inl rfl
          · split
            · exact Or.inl rfl
            · exact Or.inr rfl

theorem runUserUpdate_trace_sub (g : UserGateway) (plan state : UserModel) :
    ∀ o ∈ (runUserUpdate g plan state).1,
      o = UserOp.updateUser ∨ o = UserOp.getIdentities ∨ o = UserOp.getUser ∨
        o ∈ (userAddLoop g (state.identities.map identityKey)
          (plan.identities ++ g.remoteIdentities.filter fun i => isOAuth2 i)
          g.remoteIdentities).1 := by
  simp only [runUserUpdate]
  split
  · intro o ho; simp at ho; tauto
  · split
    · intro o ho; simp at ho; tauto
    · split
      · intro o ho; simp at ho; tauto
      · split
        · intro o ho; simp at ho; tauto
        · split
          · intro o ho; simp at ho; tauto
          · split
            · intro o ho; simp at ho; tauto
            · intro o ho; simp at ho; tauto

theorem runUserUpdate_none_identities (g : UserGateway) (plan state : UserModel)
    (h : (runUserUpdate g plan state).2.1 = none) :
    ∃ extra, (runUserUpdate g plan state).2.2.identities =
      g.remoteIdentities ++ extra := by
  rcases runUserUpdate_cases g plan state with hc | hc
  · rw [h] at hc
    exact absurd hc (by simp)
  · rw [hc]
    exact userAddLoop_remote g (state.identities.map identityKey)
      (plan.identities ++ g.remoteIdentities.filter fun i => isOAuth2 i)
      g.remoteIdentities

theorem runUserUpdate_no_oauth2_add (g : UserGateway) (plan state : UserModel)
    (f : Identity) (ho : isOAuth2 f = true) :
    UserOp.addIdentity f ∉ (runUserUpdate g plan state).1 := by
  intro hmem
  rcases runUserUpdate_trace_sub g plan state (UserOp.addIdentity f) hmem with
    h1 | h1 | h1 | h1
  · exact absurd h1 (by simp)
  · exact absurd h1 (by simp)
  · exact absurd h1 (by simp)
  · have := userAddLoop_no_oauth2 g (state.identities.map identityKey)
      (plan.identities ++ g.remoteIdentities.filter fun i => isOAuth2 i)
      g.remoteIdentities f h1
    rw [this] at ho
    exact absurd ho (by simp)

theorem merged_no_email (g : UserGateway) (planIds : List Identity)
    (hne : ∀ i ∈ planIds, i.type ≠ "email") :
    (planIds ++ g.remoteIdentities.filter (fun i => isOAuth2 i)).any
      (fun i => i.type = "email") = false := by
  rw [List.any_eq_false]
  intro i hi
  rcases List.mem_append.mp hi with hL | hR
  · simp [hne i hL]
  · have hio := (List.mem_filter.mp hR).2
    simp only [decide_eq_true_eq]
    intro heq
    rw [isOAuth2_of_email i heq] at hio
    exact absurd hio (by simp)

theorem runUserUpdate_missing_email (g : UserGateway) (plan state : UserModel)
    (hne : ∀ i ∈ plan.identities, i.type ≠ "email")
    (hU : g.updateErr = none) (hI : g.getIdentitiesErr = none) :
    runUserUpdate g plan state =
      ([UserOp.updateUser, UserOp.getIdentities],
        some "Missing Email Identity", state) := by
  have hany := merged_no_email g plan.identities hne
  simp only [runUserUpdate, hU, hI, hany, Bool.not_false, if_true]

theorem runUserCreate_missing_email (g : UserGateway) (plan : UserModel)
    (hne : ∀ i ∈ plan.identities, i.type ≠ "email") :
    runUserCreate g plan = ([], some "Missing Email Identity", none) := by
  have hany : plan.identities.any (fun i => i.type = "email") = false := by
    rw [List.any_eq_false]
    intro i hi
    simp [hne i hi]
  simp only [runUserCreate, hany, Bool.not_false, if_true]

/-! ## Connection options preservation (`connection_resource.go`)

The remote service never returns a connection's `client_id`/`client_secret`.
`Read` copies every non-sensitive field from the remote response and leaves
`state.Options` untouched; `optionsEmptyPreserveModifier.PlanModifyObject`
takes the config value when present, otherwise the state value, otherwise
null. -/

/-- Sensitive connection options (`ConnectionOptionsModel`). -/
structure ConnOptions where
  clientID : Option String
  clientSecret : Option String
deriving DecidableEq

/-- Terraform model of a connection (`ConnectionResourceModel`). -/
structure ConnModel where
  id : String
  name : String
  displayName : String
  strategy : String
  options : Option ConnOptions
deriving DecidableEq

/-- Remote response for one connection read. -/
structure ConnGateway where
  getErr : Option Err
  remoteID : String
  remoteName : String
  remoteDisplayName : String
  remoteStrategy : String

/-- `ConnectionResource.Read`: on success the basic fields come from the
remote response and the options are preserved from state; on error nothing
is written. -/
def connRead (g : ConnGateway) (state : ConnModel) : Option Err × ConnModel :=
  match g.getErr with
  | some e => (some e, state)
  | none =>
    (none,
      { id := g.remoteID
        name := g.remoteName
        displayName := g.remoteDisplayName
        strategy := g.remoteStrategy
        options := state.options })

/-- `optionsEmptyPreserveModifier.PlanModifyObject`: config wins when
present, else the state value is carried into the plan, else null. -/
def optionsPlanModify (config stateValue : Option ConnOptions) : Option ConnOptions :=
  if config.isSome then config
  else if stateValue.isSome then stateValue
  else config

/-- One refresh cycle: the state record after a `Read`. -/
def connCycle (g : ConnGateway) (state : ConnModel) : ConnModel :=
  (connRead g state).2

theorem connRead_options (g : ConnGateway) (state : ConnModel) :
    (connRead g state).2.options = state.options := by
  rcases hG : g.getErr with _ | e <;> simp [connRead, hG]

theorem connCycle_iterate_options (g : ConnGateway) (state : ConnModel) :
    ∀ n, ((connCycle g)^[n] state).options = state.options := by
  intro n
  induction n with
  | zero => rfl
  | succ k ih =>
    rw [Function.iterate_succ_apply', connCycle, connRead_options]
    exact ih

theorem optionsPlanModify_absent (stateValue : Option ConnOptions) :
    optionsPlanModify none stateValue = stateValue := by
  rcases stateValue with _ | v <;> simp [optionsPlanModify]

/-! ## Delete flows and remote error kinds (`Delete` methods)

Every `Delete` in the provider forwards the gateway error verbatim: there is
no NotFound special case, so any failing delete surfaces an error and keeps
the local record (the framework only removes the record when `Delete`
returns no diagnostics). -/

/-- Remote error taxonomy. -/
inductive RemoteErr where
  | notFound
  | transient
  | fatal (msg : String)
deriving DecidableEq

/-- Gateway response for one delete call. -/
structure DeleteGateway where
  deleteErr : Option RemoteErr

/-- `RoleResource.Delete`: the surfaced error (if any) and whether the local
record is removed. -/
def runRoleDelete (g : DeleteGateway) (state : RoleModel) :
    Option RemoteErr × Bool :=
  match g.deleteErr with
  | some e => (some e, false)
  | none => (none, true)

/-- `UserResource.Delete`: identical error handling. -/
def runUserDelete (g : DeleteGateway) (state : UserModel) :
    Option RemoteErr × Bool :=
  match g.deleteErr with
  | some e => (some e, false)
  | none => (none, true)

theorem orgUserCreateID_data (org user : String) :
    (orgUserCreateID org user).data = org.data ++ ':' :: user.data := by
  simp [orgUserCreateID, String.data_append]

theorem goSplitColon_length (s : String) :
    (goSplitColon s).length = s.data.count ':' + 1 := by
  rw [goSplitColon, List.length_map, splitOnColon_length]

theorem orgUserImportState_roundtrip (org user : String)
    (ho : ':' ∉ org.data) (hu : ':' ∉ user.data) :
    orgUserImportState (orgUserCreateID org user) = some (org, user) := by
  have hsplit : splitOnColon (orgUserCreateID org user).data =
      [org.data, user.data] := by
    rw [orgUserCreateID_data, splitOnColon_append _ _ ho,
      splitOnColon_no_colon _ hu]
  have hgo : goSplitColon (orgUserCreateID org user) = [org, user] := by
    rw [goSplitColon, hsplit]
    rfl
  simp [orgUserImportState, splitID, hgo]

theorem orgUserImportState_fails (org user : String)
    (h : ':' ∈ org.data ∨ ':' ∈ user.data) :
    orgUserImportState (orgUserCreateID org user) = none := by
  have hlen : (goSplitColon (orgUserCreateID org user)).length ≠ 2 := by
    rw [goSplitColon_length, orgUserCreateID_data]
    rw [List.count_append, List.count_cons]
    have : (1 ≤ org.data.count ':') ∨ (1 ≤ user.data.count ':') := by
      rcases h with h | h
      · exact Or.inl (List.count_pos_iff.mpr h)
      · exact Or.inr (List.count_pos_iff.mpr h)
    simp only [beq_self_eq_true, if_pos]
    omega
  simp [orgUserImportState, splitID, hlen]

theorem splitID_error_iff (id : String) (n : Nat) (fmt : String) :
    (splitID id n fmt).toOption = none ↔ id.data.count ':' + 1 ≠ n := by
  rw [splitID, ← goSplitColon_length]
  by_cases hc : (goSplitColon id).length ≠ n <;>
    simp [hc, Except.toOption]

theorem roleTraceRemovals_map (R : List String) :
    List.filterMap
      (fun o => match o with | RoleOp.removePermission p => some p | _ => none)
      (R.map RoleOp.removePermission) = R := by
  induction R with
  | nil => rfl
  | cons a l ih => simp only [List.map_cons, List.filterMap_cons, ih]

theorem orgUserTraceRemovals_map (R : List String) :
    List.filterMap
      (fun o => match o with | OrgUserOp.removeUserRole r => some r | _ => none)
      (R.map OrgUserOp.removeUserRole) = R := by
  induction R with
  | nil => rfl
  | cons a l ih => simp only [List.map_cons, List.filterMap_cons, ih]

theorem orgUserTraceRemovals_adds_map (R : List String) :
    List.filterMap
      (fun o => match o with | OrgUserOp.removeUserRole r => some r | _ => none)
      (R.map OrgUserOp.addUserRole) = [] := by
  induction R with
  | nil => rfl
  | cons a l ih => simp only [List.map_cons, List.filterMap_cons, ih]

theorem orgUserTraceAdds_map (R : List String) :
    List.filterMap
      (fun o => match o with | OrgUserOp.addUserRole r => some r | _ => none)
      (R.map OrgUserOp.addUserRole) = R := by
  induction R with
  | nil => rfl
  | cons a l ih => simp only [List.map_cons, List.filterMap_cons, ih]

theorem orgUserTraceAdds_removals_map (R : List String) :
    List.filterMap
      (fun o => match o with | OrgUserOp.addUserRole r => some r | _ => none)
      (R.map OrgUserOp.removeUserRole) = [] := by
  induction R with
  | nil => rfl
  | cons a l ih => simp only [List.map_cons, List.filterMap_cons, ih]

theorem roleTraceAdds_removals_map (R : List String) :
    List.filterMap
      (fun o => match o with | RoleOp.updatePermissions l => some l | _ => none)
      (R.map RoleOp.removePermission) = [] := by
  induction R with
  | nil => rfl
  | cons a l ih => simp only [List.map_cons, List.filterMap_cons, ih]

theorem roleTraceRemovals_ok (g : RoleGateway) (plan state : RoleModel)
    (hg : g.ok) :
    roleTraceRemovals (runRoleUpdate g plan state).1 =
      (state.permissions.getD []).filter
        (fun p => !(plan.permissions.getD []).contains p) := by
  rw [runRoleUpdate_ok g plan state hg]
  split <;>
    simp [roleTraceRemovals, roleTraceRemovals_map, -List.filterMap_map]

theorem roleTraceAdds_ok (g : RoleGateway) (plan state : RoleModel)
    (hg : g.ok) :
    roleTraceAdds (runRoleUpdate g plan state).1 =
      goSortStrings
        ((plan.permissions.getD []).filter
          (fun p => !(state.permissions.getD []).contains p)) := by
  rw [runRoleUpdate_ok g plan state hg]
  split
  · simp [roleTraceAdds, roleTraceAdds_removals_map, -List.filterMap_map]
  · rename_i h
    have hnil :
          (plan.permissions.getD []).filter
            (fun p => !(state.permissions.getD []).contains p) = [] := by
      rcases hq : (plan.permissions.getD []).filter
          (fun p => !(state.permissions.getD []).contains p) with _ | ⟨a, l⟩
      · rfl
      · rw [hq] at h
        simp at h
    rw [hnil]
    simp [roleTraceAdds, roleTraceAdds_removals_map, -List.filterMap_map,
      goSortStrings, List.insertionSort]

theorem orgUserTraceRemovals_ok (g : OrgUserGateway) (plan state : OrgUserModel)
    (hg : g.ok) (hne : plan.roles ≠ state.roles) :
    orgUserTraceRemovals (runOrgUserUpdate g plan state).1 =
      g.currentRoles.filter (fun r => !(plan.roles.getD []).contains r) := by
  rw [runOrgUserUpdate_ok g plan state hg hne]
  simp [orgUserTraceRemovals, orgUserTraceRemovals_map,
    orgUserTraceRemovals_adds_map, -List.filterMap_map]

theorem orgUserTraceAdds_ok (g : OrgUserGateway) (plan state : OrgUserModel)
    (hg : g.ok) (hne : plan.roles ≠ state.roles) :
    orgUserTraceAdds (runOrgUserUpdate g plan state).1 =
      (plan.roles.getD []).filter (fun r => !g.currentRoles.contains r) := by
  rw [runOrgUserUpdate_ok g plan state hg hne]
  simp [orgUserTraceAdds, orgUserTraceAdds_map,
    orgUserTraceAdds_removals_map, -List.filterMap_map]

/-! ## Claim theorems -/

/-- C1: in one association reconciliation against a gateway on which every
call succeeds, the role-permission reconciler and the organization-user role
reconciler issue remove operations exactly for the prior-observed members
missing from the declared set, and add operations exactly for the declared
members missing from the prior-observed set; members of the intersection are
untouched and the two computed sets are disjoint (neither association kind
has foreign members, so the foreign subtraction is vacuous). -/
theorem claim_C1_association_delta
    (g : RoleGateway) (plan state : RoleModel) (hg : g.ok)
    (g' : OrgUserGateway) (plan' state' : OrgUserModel) (hg' : g'.ok)
    (hne : plan'.roles ≠ state'.roles) :
    (∀ p, p ∈ roleTraceRemovals (runRoleUpdate g plan state).1 ↔
        p ∈ state.permissions.getD [] ∧ p ∉ plan.permissions.getD []) ∧
    (∀ p, p ∈ roleTraceAdds (runRoleUpdate g plan state).1 ↔
        p ∈ plan.permissions.getD [] ∧ p ∉ state.permissions.getD []) ∧
    (∀ p, p ∈ state.permissions.getD [] → p ∈ plan.permissions.getD [] →
        p ∉ roleTraceRemovals (runRoleUpdate g plan state).1 ∧
        p ∉ roleTraceAdds (runRoleUpdate g plan state).1) ∧
    (∀ p, ¬(p ∈ roleTraceRemovals (runRoleUpdate g plan state).1 ∧
        p ∈ roleTraceAdds (runRoleUpdate g plan state).1)) ∧
    (∀ r, r ∈ orgUserTraceRemovals (runOrgUserUpdate g' plan' state').1 ↔
        r ∈ g'.currentRoles ∧ r ∉ plan'.roles.getD []) ∧
    (∀ r, r ∈ orgUserTraceAdds (runOrgUserUpdate g' plan' state').1 ↔
        r ∈ plan'.roles.getD [] ∧ r ∉ g'.currentRoles) ∧
    (∀ r, ¬(r ∈ orgUserTraceRemovals (runOrgUserUpdate g' plan' state').1 ∧
        r ∈ orgUserTraceAdds (runOrgUserUpdate g' plan' state').1)) := by
  have hR := roleTraceRemovals_ok g plan state hg
  have hA := roleTraceAdds_ok g plan state hg
  have hR' := orgUserTraceRemovals_ok g' plan' state' hg' hne
  have hA' := orgUserTraceAdds_ok g' plan' state' hg' hne
  have hRm : ∀ p, p ∈ roleTraceRemovals (runRoleUpdate g plan state).1 ↔
      p ∈ state.permissions.getD [] ∧ p ∉ plan.permissions.getD [] := by
    intro p
    rw [hR]
    simp [List.mem_filter]
  have hAm : ∀ p, p ∈ roleTraceAdds (runRoleUpdate g plan state).1 ↔
      p ∈ plan.permissions.getD [] ∧ p ∉ state.permissions.getD [] := by
    intro p
    rw [hA, (goSortStrings_perm _).mem_iff]
    simp [List.mem_filter]
  have hRm' : ∀ r, r ∈ orgUserTraceRemovals (runOrgUserUpdate g' plan' state').1 ↔
      r ∈ g'.currentRoles ∧ r ∉ plan'.roles.getD [] := by
    intro r
    rw [hR']
    simp [List.mem_filter]
  have hAm' : ∀ r, r ∈ orgUserTraceAdds (runOrgUserUpdate g' plan' state').1 ↔
      r ∈ plan'.roles.getD [] ∧ r ∉ g'.currentRoles := by
    intro r
    rw [hA']
    simp [List.mem_filter]
  refine ⟨hRm, hAm, ?_, ?_, hRm', hAm', ?_⟩
  · intro p hs hp
    constructor
    · intro hmem
      exact ((hRm p).mp hmem).2 hp
    · intro hmem
      exact ((hAm p).mp hmem).2 hs
  · rintro p ⟨h1, h2⟩
    exact ((hRm p).mp h1).2 ((hAm p).mp h2).1
  · rintro r ⟨h1, h2⟩
    exact ((hRm' r).mp h1).2 ((hAm' r).mp h2).1

/-- Witness for C1: declared role permissions [p1, p3] against prior state
[p1, p2] remove exactly p2, and a declared org-user role list [r1] against
no prior roles adds exactly r1. -/
theorem claim_C1_witness :
    "p2" ∈ roleTraceRemovals (runRoleUpdate
      { updateErr := none
        removePermErr := fun _ => none
        updatePermsErr := fun _ => none
        getErr := none
        getID := "r"
        getName := "n"
        getKey := "k"
        getDescription := "d"
        getPerms := [] }
      { id := "r", name := "n", key := "k", description := "d",
        permissions := some ["p1", "p3"] }
      { id := "r", name := "n", key := "k", description := "d",
        permissions := some ["p1", "p2"] }).1 :=
  ((claim_C1_association_delta _ _ _
      ⟨rfl, fun _ => rfl, fun _ => rfl, rfl⟩
      { getRolesErr := none
        currentRoles := []
        removeRoleErr := fun _ => none
        addRoleErr := fun _ => none }
      { id := "o:u", organizationCode := "o", userID := "u",
        roles := some ["r1"], permissions := none }
      { id := "o:u", organizationCode := "o", userID := "u",
        roles := none, permissions := none }
      ⟨rfl, fun _ => rfl, fun _ => rfl⟩ (by simp)).1 "p2").mpr (by decide)

/-- C2: an externally managed (oauth2-prefixed) identity in prior state is
merged back into the plan by the plan modifier; the update flow never issues
any identity-mutating operation for it (and the source has no identity
removal call at all); and on a successful update the persisted identity set
still contains every identity the remote reported, in particular the
oauth2-prefixed one. -/
theorem claim_C2_oauth2_never_removed
    (stateIds planned : List Identity) (f : Identity)
    (ho : isOAuth2 f = true) (hf : f ∈ stateIds)
    (g : UserGateway) (plan state : UserModel)
    (hrem : f ∈ g.remoteIdentities) :
    f ∈ identitiesPlanModify (some stateIds) planned ∧
    UserOp.addIdentity f ∉ (runUserUpdate g plan state).1 ∧
    ((runUserUpdate g plan state).2.1 = none →
      f ∈ (runUserUpdate g plan state).2.2.identities) := by
  refine ⟨identitiesPlanModify_preserves stateIds planned f hf ho,
    runUserUpdate_no_oauth2_add g plan state f ho, ?_⟩
  intro h
  obtain ⟨extra, hex⟩ := runUserUpdate_none_identities g plan state h
  rw [hex]
  exact List.mem_append_left _ hrem

/-- Witness for C2: the oauth2:google identity present remotely survives a
successful update whose declared identities do not mention it. -/
theorem claim_C2_witness :
    Identity.mk "oauth2:google" "u@x.com" ∈
      (runUserUpdate
        { createErr := none
          createdID := "u1"
          updateErr := none
          getIdentitiesErr := none
          remoteIdentities := [Identity.mk "oauth2:google" "u@x.com"]
          addIdentityErr := fun _ => none
          getUserErr := none
          finalGetIdentitiesErr := none
          userFirstName := "F"
          userLastName := "L"
          userIsSuspended := false
          userCreatedOn := "c"
          userUpdatedOn := "u" }
        { id := "u1", firstName := none, lastName := none, isSuspended := none,
          organizationCode := none, createdOn := "c", updatedOn := "u",
          identities := [Identity.mk "email" "u@x.com"] }
        { id := "u1", firstName := none, lastName := none, isSuspended := none,
          organizationCode := none, createdOn := "c", updatedOn := "u",
          identities := [Identity.mk "email" "u@x.com",
            Identity.mk "oauth2:google" "u@x.com"] }).2.2.identities :=
  (claim_C2_oauth2_never_removed
    [Identity.mk "email" "u@x.com", Identity.mk "oauth2:google" "u@x.com"]
    [Identity.mk "email" "u@x.com"]
    (Identity.mk "oauth2:google" "u@x.com") (by decide) (by decide)
    _ _ _ (by decide)).2.2 (by decide)

/-- C3 counterexample: an update whose declared permission set is null
(prior state holding p1) issues a removal of p1, so a declared-absent set is
not treated as "no managed change". -/
theorem claim_C3_counterexample :
    roleTraceRemovals (runRoleUpdate
      { updateErr := none
        removePermErr := fun _ => none
        updatePermsErr := fun _ => none
        getErr := none
        getID := "r"
        getName := "n"
        getKey := "k"
        getDescription := "d"
        getPerms := [] }
      { id := "r", name := "n", key := "k", description := "d",
        permissions := none }
      { id := "r", name := "n", key := "k", description := "d",
        permissions := some ["p1"] }).1 = ["p1"] := by decide

/-- C3 amended: a null declared association set is treated exactly like a
declared-empty set, not as "no managed change": the role update behaves
identically under the two plans and, on a successful gateway, removes every
prior member; the organization-user update with a null declared role list
(differing from state) removes every current role. -/
theorem claim_C3_null_treated_as_empty
    (g : RoleGateway) (plan state : RoleModel) (hn : plan.permissions = none)
    (g' : OrgUserGateway) (plan' state' : OrgUserModel)
    (hn' : plan'.roles = none) (hs' : state'.roles ≠ none) :
    runRoleUpdate g plan state =
      runRoleUpdate g { plan with permissions := some [] } state ∧
    (g.ok → roleTraceRemovals (runRoleUpdate g plan state).1 =
      state.permissions.getD []) ∧
    (g'.ok → orgUserTraceRemovals (runOrgUserUpdate g' plan' state').1 =
      g'.currentRoles) := by
  refine ⟨?_, ?_, ?_⟩
  · simp [runRoleUpdate, hn]
  · intro hok
    rw [roleTraceRemovals_ok g plan state hok, hn]
    simp
  · intro hok
    have hne : plan'.roles ≠ state'.roles := by
      rw [hn']
      exact fun hh => hs' hh.symm
    rw [orgUserTraceRemovals_ok g' plan' state' hok hne, hn']
    simp

/-- Witness for C3's amended statement: with a null declared role list and
prior roles [r1, r2], both current roles are removed. -/
theorem claim_C3_witness :
    orgUserTraceRemovals (runOrgUserUpdate
      { getRolesErr := none
        currentRoles := ["r1", "r2"]
        removeRoleErr := fun _ => none
        addRoleErr := fun _ => none }
      { id := "o:u", organizationCode := "o", userID := "u",
        roles := none, permissions := none }
      { id := "o:u", organizationCode := "o", userID := "u",
        roles := some ["r1", "r2"], permissions := none }).1 = ["r1", "r2"] :=
  (claim_C3_null_treated_as_empty
    { updateErr := none
      removePermErr := fun _ => none
      updatePermsErr := fun _ => none
      getErr := none
      getID := "r"
      getName := "n"
      getKey := "k"
      getDescription := "d"
      getPerms := [] }
    { id := "r", name := "n", key := "k", description := "d",
      permissions := none }
    { id := "r", name := "n", key := "k", description := "d",
      permissions := none }
    rfl _ _ _ rfl (by decide)).2.2
    ⟨rfl, fun _ => rfl, fun _ => rfl⟩

/-- Whether a role-update trace operation removes a permission. -/
def isRoleRemoveOp : RoleOp → Bool
  | RoleOp.removePermission _ => true
  | _ => false

/-- Whether a role-update trace operation adds permissions. -/
def isRoleAddOp : RoleOp → Bool
  | RoleOp.updatePermissions _ => true
  | _ => false

/-- Whether an organization-user trace operation removes a role. -/
def isOrgUserRemoveOp : OrgUserOp → Bool
  | OrgUserOp.removeUserRole _ => true
  | _ => false

/-- Whether an organization-user trace operation adds a role. -/
def isOrgUserAddOp : OrgUserOp → Bool
  | OrgUserOp.addUserRole _ => true
  | _ => false

theorem filter_map_true {α β : Type} (f : α → β) (p : β → Bool)
    (h : ∀ a, p (f a) = true) :
    ∀ l : List α, (l.map f).filter p = l.map f
  | [] => rfl
  | a :: l => by
    simp [List.filter_cons, h a, filter_map_true f p h l]

theorem filter_map_false {α β : Type} (f : α → β) (p : β → Bool)
    (h : ∀ a, p (f a) = false) :
    ∀ l : List α, (l.map f).filter p = []
  | [] => rfl
  | a :: l => by
    simp [List.filter_cons, h a, filter_map_false f p h l]

/-- C4 counterexample: with prior-state permissions [b, a] and an empty
declared set, the removal operations are issued in prior-state order
[b, a], which is not ascending member-identifier order. -/
theorem claim_C4_counterexample :
    roleTraceRemovals (runRoleUpdate
      { updateErr := none
        removePermErr := fun _ => none
        updatePermsErr := fun _ => none
        getErr := none
        getID := "r"
        getName := "n"
        getKey := "k"
        getDescription := "d"
        getPerms := [] }
      { id := "r", name := "n", key := "k", description := "d",
        permissions := some [] }
      { id := "r", name := "n", key := "k", description := "d",
        permissions := some ["b", "a"] }).1 = ["b", "a"] ∧
    ¬ List.Sorted goLe ["b", "a"] :=
  ⟨by decide,
    fun h => absurd ((List.sorted_cons.mp h).1 "a" (by decide)) (by decide)⟩

/-- C4 amended: on a gateway where every call succeeds, all removal
operations are issued before any addition (the trace filtered to membership
operations lists every removal and then every addition); the role additions
go out in one bulk call whose member list is sorted ascending; but the
removals follow the prior-state list order and the organization-user
removals and additions follow the freshly read and declared list orders
respectively, none of them re-sorted. -/
theorem claim_C4_removals_precede_additions
    (g : RoleGateway) (plan state : RoleModel) (hg : g.ok)
    (g' : OrgUserGateway) (plan' state' : OrgUserModel) (hg' : g'.ok) :
    ((runRoleUpdate g plan state).1.filter
        (fun o => isRoleRemoveOp o || isRoleAddOp o) =
      (runRoleUpdate g plan state).1.filter isRoleRemoveOp ++
        (runRoleUpdate g plan state).1.filter isRoleAddOp) ∧
    (∀ l, RoleOp.updatePermissions l ∈ (runRoleUpdate g plan state).1 →
      List.Sorted goLe l) ∧
    (roleTraceRemovals (runRoleUpdate g plan state).1 =
      (state.permissions.getD []).filter
        (fun p => !(plan.permissions.getD []).contains p)) ∧
    ((runOrgUserUpdate g' plan' state').1.filter
        (fun o => isOrgUserRemoveOp o || isOrgUserAddOp o) =
      (runOrgUserUpdate g' plan' state').1.filter isOrgUserRemoveOp ++
        (runOrgUserUpdate g' plan' state').1.filter isOrgUserAddOp) ∧
    (plan'.roles ≠ state'.roles →
      orgUserTraceRemovals (runOrgUserUpdate g' plan' state').1 =
        g'.currentRoles.filter (fun r => !(plan'.roles.getD []).contains r) ∧
      orgUserTraceAdds (runOrgUserUpdate g' plan' state').1 =
        (plan'.roles.getD []).filter (fun r => !g'.currentRoles.contains r)) := by
  have hremT := filter_map_true RoleOp.removePermission isRoleRemoveOp
    (fun _ => rfl)
  have hremF := filter_map_false RoleOp.removePermission isRoleAddOp
    (fun _ => rfl)
  have hremOr := filter_map_true RoleOp.removePermission
    (fun o => isRoleRemoveOp o || isRoleAddOp o) (fun _ => rfl)
  have horemT := filter_map_true OrgUserOp.removeUserRole isOrgUserRemoveOp
    (fun _ => rfl)
  have horemF := filter_map_false OrgUserOp.removeUserRole isOrgUserAddOp
    (fun _ => rfl)
  have horemOr := filter_map_true OrgUserOp.removeUserRole
    (fun o => isOrgUserRemoveOp o || isOrgUserAddOp o) (fun _ => rfl)
  have hoaddT := filter_map_true OrgUserOp.addUserRole isOrgUserAddOp
    (fun _ => rfl)
  have hoaddF := filter_map_false OrgUserOp.addUserRole isOrgUserRemoveOp
    (fun _ => rfl)
  have hoaddOr := filter_map_true OrgUserOp.addUserRole
    (fun o => isOrgUserRemoveOp o || isOrgUserAddOp o) (fun _ => rfl)
  have e1 : isRoleRemoveOp RoleOp.updateDetails = false := rfl
  have e2 : isRoleAddOp RoleOp.updateDetails = false := rfl
  have e3 : isRoleRemoveOp RoleOp.getRole = false := rfl
  have e4 : isRoleAddOp RoleOp.getRole = false := rfl
  have e5 : ∀ s, isRoleRemoveOp (RoleOp.updatePermissions s) = false :=
    fun _ => rfl
  have e6 : ∀ s, isRoleAddOp (RoleOp.updatePermissions s) = true :=
    fun _ => rfl
  have f1 : isOrgUserRemoveOp OrgUserOp.getUserRoles = false := rfl
  have f2 : isOrgUserAddOp OrgUserOp.getUserRoles = false := rfl
  refine ⟨?_, ?_, roleTraceRemovals_ok g plan state hg, ?_, ?_⟩
  · rw [runRoleUpdate_ok g plan state hg]
    dsimp only
    split <;>
      simp [List.filter_append, List.filter_cons, hremT, hremF, hremOr,
        e1, e2, e3, e4, e5, e6]
  · rw [runRoleUpdate_ok g plan state hg]
    dsimp only
    intro l hl
    split at hl <;> simp at hl
    rw [hl]
    exact goSortStrings_sorted _
  · by_cases hpe : plan'.roles = state'.roles
    · simp [runOrgUserUpdate, hpe]
    · rw [runOrgUserUpdate_ok g' plan' state' hg' hpe]
      dsimp only
      simp [List.filter_append, List.filter_cons, horemT, horemF, horemOr,
        hoaddT, hoaddF, hoaddOr, f1, f2]
  · intro hne
    exact ⟨orgUserTraceRemovals_ok g' plan' state' hg' hne,
      orgUserTraceAdds_ok g' plan' state' hg' hne⟩

/-- Witness for C4's amended statement at a concrete update: removals come
out before the sorted bulk addition. -/
theorem claim_C4_witness :
    (runRoleUpdate
      { updateErr := none
        removePermErr := fun _ => none
        updatePermsErr := fun _ => none
        getErr := none
        getID := "r"
        getName := "n"
        getKey := "k"
        getDescription := "d"
        getPerms := [] }
      { id := "r", name := "n", key := "k", description := "d",
        permissions := some ["p3", "p1"] }
      { id := "r", name := "n", key := "k", description := "d",
        permissions := some ["p2", "p1"] }).1.filter
        (fun o => isRoleRemoveOp o || isRoleAddOp o) =
      (runRoleUpdate
      { updateErr := none
        removePermErr := fun _ => none
        updatePermsErr := fun _ => none
        getErr := none
        getID := "r"
        getName := "n"
        getKey := "k"
        getDescription := "d"
        getPerms := [] }
      { id := "r", name := "n", key := "k", description := "d",
        permissions := some ["p3", "p1"] }
      { id := "r", name := "n", key := "k", description := "d",
        permissions := some ["p2", "p1"] }).1.filter isRoleRemoveOp ++
      (runRoleUpdate
      { updateErr := none
        removePermErr := fun _ => none
        updatePermsErr := fun _ => none
        getErr := none
        getID := "r"
        getName := "n"
        getKey := "k"
        getDescription := "d"
        getPerms := [] }
      { id := "r", name := "n", key := "k", description := "d",
        permissions := some ["p3", "p1"] }
      { id := "r", name := "n", key := "k", description := "d",
        permissions := some ["p2", "p1"] }).1.filter isRoleAddOp :=
  (claim_C4_removals_precede_additions _ _ _
    ⟨rfl, fun _ => rfl, fun _ => rfl, rfl⟩
    { getRolesErr := none
      currentRoles := []
      removeRoleErr := fun _ => none
      addRoleErr := fun _ => none }
    { id := "o:u", organizationCode := "o", userID := "u",
      roles := none, permissions := none }
    { id := "o:u", organizationCode := "o", userID := "u",
      roles := none, permissions := none }
    ⟨rfl, fun _ => rfl, fun _ => rfl⟩).1

/-- C5: a connection's write-only credential options survive arbitrarily
many refresh cycles when the declared value is absent: the Read flow leaves
the stored options untouched (on success and on error alike), iterating it
any number of times changes nothing, and the plan modifier carries the
preserved state value into the plan so the planned options equal the stored
ones — no change is planned for the field. -/
theorem claim_C5_write_only_preservation (g : ConnGateway) (state : ConnModel)
    (n : Nat) :
    (connRead g state).2.options = state.options ∧
    ((connCycle g)^[n] state).options = state.options ∧
    optionsPlanModify none (((connCycle g)^[n] state).options) =
      ((connCycle g)^[n] state).options :=
  ⟨connRead_options g state, connCycle_iterate_options g state n,
    optionsPlanModify_absent _⟩

/-- C6: if any remote call during a role or organization-user update fails,
the run stops at the failing operation — every operation issued before it
succeeded and nothing follows it — the error is attached, and the persisted
state record is exactly the prior state. -/
theorem claim_C6_error_preserves_state
    (g : RoleGateway) (plan state : RoleModel)
    (t : List RoleOp) (e : Err) (s' : RoleModel)
    (h : runRoleUpdate g plan state = (t, some e, s'))
    (g' : OrgUserGateway) (plan' state' : OrgUserModel)
    (t' : List OrgUserOp) (e' : Err) (s'' : OrgUserModel)
    (h' : runOrgUserUpdate g' plan' state' = (t', some e', s'')) :
    (s' = state ∧ ∃ pre op, t = pre ++ [op] ∧ g.opFails op = true ∧
      ∀ o ∈ pre, g.opFails o = false) ∧
    (s'' = state' ∧ ∃ pre op, t' = pre ++ [op] ∧ g'.opFails op = true ∧
      ∀ o ∈ pre, g'.opFails o = false) :=
  ⟨runRoleUpdate_err g plan state t e s' h,
    runOrgUserUpdate_err g' plan' state' t' e' s'' h'⟩

/-- Witness for C6: a failing role-details update and a failing role read
leave the prior state records untouched. -/
theorem claim_C6_witness :
    (runRoleUpdate
      { updateErr := some "boom"
        removePermErr := fun _ => none
        updatePermsErr := fun _ => none
        getErr := none
        getID := "r"
        getName := "n"
        getKey := "k"
        getDescription := "d"
        getPerms := [] }
      { id := "r", name := "n", key := "k", description := "d",
        permissions := some ["p1"] }
      { id := "r", name := "n", key := "k", description := "d",
        permissions := some ["p2"] }).2.2 =
      { id := "r", name := "n", key := "k", description := "d",
        permissions := some ["p2"] } ∧
    (runOrgUserUpdate
      { getRolesErr := some "down"
        currentRoles := ["r1"]
        removeRoleErr := fun _ => none
        addRoleErr := fun _ => none }
      { id := "o:u", organizationCode := "o", userID := "u",
        roles := some ["r2"], permissions := none }
      { id := "o:u", organizationCode := "o", userID := "u",
        roles := some ["r1"], permissions := none }).2.2 =
      { id := "o:u", organizationCode := "o", userID := "u",
        roles := some ["r1"], permissions := none } :=
  ⟨(claim_C6_error_preserves_state
      { updateErr := some "boom"
        removePermErr := fun _ => none
        updatePermsErr := fun _ => none
        getErr := none
        getID := "r"
        getName := "n"
        getKey := "k"
        getDescription := "d"
        getPerms := [] }
      { id := "r", name := "n", key := "k", description := "d",
        permissions := some ["p1"] }
      { id := "r", name := "n", key := "k", description := "d",
        permissions := some ["p2"] }
      [RoleOp.updateDetails] "boom"
      { id := "r", name := "n", key := "k", description := "d",
        permissions := some ["p2"] }
      rfl
      { getRolesErr := some "down"
        currentRoles := ["r1"]
        removeRoleErr := fun _ => none
        addRoleErr := fun _ => none }
      { id := "o:u", organizationCode := "o", userID := "u",
        roles := some ["r2"], permissions := none }
      { id := "o:u", organizationCode := "o", userID := "u",
        roles := some ["r1"], permissions := none }
      [OrgUserOp.getUserRoles] "down"
      { id := "o:u", organizationCode := "o", userID := "u",
        roles := some ["r1"], permissions := none }
      (by decide)).1.1,
    (claim_C6_error_preserves_state
      { updateErr := some "boom"
        removePermErr := fun _ => none
        updatePermsErr := fun _ => none
        getErr := none
        getID := "r"
        getName := "n"
        getKey := "k"
        getDescription := "d"
        getPerms := [] }
      { id := "r", name := "n", key := "k", description := "d",
        permissions := some ["p1"] }
      { id := "r", name := "n", key := "k", description := "d",
        permissions := some ["p2"] }
      [RoleOp.updateDetails] "boom"
      { id := "r", name := "n", key := "k", description := "d",
        permissions := some ["p2"] }
      rfl
      { getRolesErr := some "down"
        currentRoles := ["r1"]
        removeRoleErr := fun _ => none
        addRoleErr := fun _ => none }
      { id := "o:u", organizationCode := "o", userID := "u",
        roles := some ["r2"], permissions := none }
      { id := "o:u", organizationCode := "o", userID := "u",
        roles := some ["r1"], permissions := none }
      [OrgUserOp.getUserRoles] "down"
      { id := "o:u", organizationCode := "o", userID := "u",
        roles := some ["r1"], permissions := none }
      (by decide)).2.1⟩

/-- C7 counterexample: an Update whose declared identity list has no email
identity does surface the Missing Email Identity error, but only after the
remote profile-update request has been issued — the trace contains the
update call, contradicting "issues no remote create or update request". -/
theorem claim_C7_counterexample :
    (runUserUpdate
      { createErr := none
        createdID := "u1"
        updateErr := none
        getIdentitiesErr := none
        remoteIdentities := []
        addIdentityErr := fun _ => none
        getUserErr := none
        finalGetIdentitiesErr := none
        userFirstName := "F"
        userLastName := "L"
        userIsSuspended := false
        userCreatedOn := "c"
        userUpdatedOn := "u" }
      { id := "u1", firstName := none, lastName := none, isSuspended := none,
        organizationCode := none, createdOn := "c", updatedOn := "u",
        identities := [Identity.mk "username" "bob"] }
      { id := "u1", firstName := none, lastName := none, isSuspended := none,
        organizationCode := none, createdOn := "c", updatedOn := "u",
        identities := [Identity.mk "username" "bob"] }).2.1 =
      some "Missing Email Identity" ∧
    UserOp.updateUser ∈ (runUserUpdate
      { createErr := none
        createdID := "u1"
        updateErr := none
        getIdentitiesErr := none
        remoteIdentities := []
        addIdentityErr := fun _ => none
        getUserErr := none
        finalGetIdentitiesErr := none
        userFirstName := "F"
        userLastName := "L"
        userIsSuspended := false
        userCreatedOn := "c"
        userUpdatedOn := "u" }
      { id := "u1", firstName := none, lastName := none, isSuspended := none,
        organizationCode := none, createdOn := "c", updatedOn := "u",
        identities := [Identity.mk "username" "bob"] }
      { id := "u1", firstName := none, lastName := none, isSuspended := none,
        organizationCode := none, createdOn := "c", updatedOn := "u",
        identities := [Identity.mk "username" "bob"] }).1 := by
  constructor <;> decide

/-- C7 amended: a declared identity list with no email identity is rejected
with the Missing Email Identity error in both flows, but the validation is
local only for Create — its trace is empty, so no remote call precedes the
error — whereas Update surfaces the same error only after the profile
update and the identity read have been issued (and before any identity add). -/
theorem claim_C7_email_validation
    (g : UserGateway) (plan state : UserModel)
    (hne : ∀ i ∈ plan.identities, i.type ≠ "email")
    (hU : g.updateErr = none) (hI : g.getIdentitiesErr = none) :
    runUserCreate g plan = ([], some "Missing Email Identity", none) ∧
    runUserUpdate g plan state =
      ([UserOp.updateUser, UserOp.getIdentities],
        some "Missing Email Identity", state) :=
  ⟨runUserCreate_missing_email g plan hne,
    runUserUpdate_missing_email g plan state hne hU hI⟩

/-- Witness for C7's amended statement: a username-only user is rejected at
Create with no remote call issued. -/
theorem claim_C7_witness :
    runUserCreate
      { createErr := none
        createdID := "u1"
        updateErr := none
        getIdentitiesErr := none
        remoteIdentities := []
        addIdentityErr := fun _ => none
        getUserErr := none
        finalGetIdentitiesErr := none
        userFirstName := "F"
        userLastName := "L"
        userIsSuspended := false
        userCreatedOn := "c"
        userUpdatedOn := "u" }
      { id := "u1", firstName := none, lastName := none, isSuspended := none,
        organizationCode := none, createdOn := "c", updatedOn := "u",
        identities := [Identity.mk "username" "bob"] } =
      ([], some "Missing Email Identity", none) :=
  (claim_C7_email_validation _
    { id := "u1", firstName := none, lastName := none, isSuspended := none,
      organizationCode := none, createdOn := "c", updatedOn := "u",
      identities := [Identity.mk "username" "bob"] }
    { id := "u1", firstName := none, lastName := none, isSuspended := none,
      organizationCode := none, createdOn := "c", updatedOn := "u",
      identities := [Identity.mk "username" "bob"] }
    (by decide) rfl rfl).1

/-- C8 counterexample: deleting a role that has already vanished remotely
(the gateway returns NotFound) surfaces an error and keeps the local record,
instead of the claimed idempotent success. -/
theorem claim_C8_counterexample :
    runRoleDelete { deleteErr := some RemoteErr.notFound }
      { id := "r", name := "n", key := "k", description := "d",
        permissions := none } =
      (some RemoteErr.notFound, false) := rfl

/-- C8 amended: no Delete treats remote NotFound specially — the role and
user Delete flows surface every gateway error verbatim, including NotFound,
and the local record is removed exactly when the delete call returned no
error. -/
theorem claim_C8_delete_surfaces_all_errors (g : DeleteGateway)
    (stateR : RoleModel) (stateU : UserModel) :
    (runRoleDelete g stateR).1 = g.deleteErr ∧
    ((runRoleDelete g stateR).2 = true ↔ g.deleteErr = none) ∧
    (runUserDelete g stateU).1 = g.deleteErr ∧
    ((runUserDelete g stateU).2 = true ↔ g.deleteErr = none) := by
  rcases hd : g.deleteErr with _ | e <;>
    simp [runRoleDelete, runUserDelete, hd]

/-- C9: the composite organization-user identifier written by Create is
recovered exactly by ImportState if and only if neither the organization
code nor the user id contains a colon, and `splitID` fails precisely when
the number of colon-separated parts of its input (one more than its colon
count) differs from the expected count. -/
theorem claim_C9_composite_id_roundtrip (org user id fmt : String) (n : Nat) :
    (orgUserImportState (orgUserCreateID org user) = some (org, user) ↔
      ':' ∉ org.data ∧ ':' ∉ user.data) ∧
    ((splitID id n fmt).toOption = none ↔ id.data.count ':' + 1 ≠ n) := by
  constructor
  · constructor
    · intro h
      by_contra hc
      rw [not_and_or] at hc
      have hcol : ':' ∈ org.data ∨ ':' ∈ user.data := by
        rcases hc with hc | hc
        · exact Or.inl (not_not.mp hc)
        · exact Or.inr (not_not.mp hc)
      rw [orgUserImportState_fails org user hcol] at h
      exact absurd h (by simp)
    · rintro ⟨ho, hu⟩
      exact orgUserImportState_roundtrip org user ho hu
  · exact splitID_error_iff id n fmt

/-- C10: the sorting helpers are pure: on a valid heap pointer,
`sortStringSlice` and `sortPermissions` leave the input slice's contents
untouched, return a freshly allocated slice holding an ascending-sorted
permutation of the input, and `sortStringSlice` maps a nil slice to nil with
the heap unchanged. -/
theorem claim_C10_sort_helpers_pure (h : GoHeap) (p : Nat) (hp : p < h.next) :
    (sortStringSlice h (some p)).1.cells p = h.cells p ∧
    (sortStringSlice h (some p)).2 = some h.next ∧
    h.next ≠ p ∧
    List.Sorted goLe ((sortStringSlice h (some p)).1.cells h.next) ∧
    ((sortStringSlice h (some p)).1.cells h.next).Perm (h.cells p) ∧
    sortStringSlice h none = (h, none) ∧
    (sortPermissions h p).1.cells p = h.cells p ∧
    (sortPermissions h p).2 = h.next ∧
    List.Sorted goLe ((sortPermissions h p).1.cells (sortPermissions h p).2) ∧
    ((sortPermissions h p).1.cells (sortPermissions h p).2).Perm (h.cells p) := by
  obtain ⟨h1, h2, h3⟩ := sortStringSlice_some_cells h p hp
  obtain ⟨h4, h5, h6⟩ := sortPermissions_cells h p hp
  refine ⟨h1, h2, by omega, ?_, ?_, rfl, h4, h5, ?_, ?_⟩
  · rw [h3]
    exact goSortStrings_sorted _
  · rw [h3]
    exact goSortStrings_perm _
  · rw [h6]
    exact goSortStrings_sorted _
  · rw [h6]
    exact goSortStrings_perm _

/-- Witness for C10: sorting a two-element slice leaves the original cell
holding [b, a] and produces a fresh sorted cell. -/
theorem claim_C10_witness :
    (sortStringSlice { cells := fun _ => ["b", "a"], next := 1 }
      (some 0)).1.cells 0 = ["b", "a"] :=
  (claim_C10_sort_helpers_pure
    { cells := fun _ => ["b", "a"], next := 1 } 0 (by decide)).1
